import Mathlib

/-!
# Verification of the expiry-date-manager ingredient model

A shallow embedding of the ingredient data model, validation, derived
computations (days remaining, expiration status), storage update, filtering,
sorting, timeline bar layout, and statistics of the expiry-date-manager
web application (src/js/dataModel.js, src/js/storage.js, src/js/search.js
and the gantt chart module), together with theorems settling the spec claims.

Modelling conventions:
* A JavaScript `Date` value at local midnight is an integer day number;
  an invalid date (`NaN` under arithmetic) is `none`, so a parsed date is
  `JSDate := Option Int`.  `civilToDays` converts a calendar date to its
  day number so that concrete calendar scenarios can be stated.
* A date-valued field of a record is `Option JSDate`: the outer `none`
  models a falsy field (absent or the empty string), `some d` a truthy
  string whose parse result is `d`.
* JavaScript numbers appearing in the layout computation are `Option ℚ`
  (`none` = `NaN`); `Math.max`/`Math.min`/comparisons propagate `none`
  exactly as JS propagates `NaN` (comparisons with `NaN` are `false`).
* Strings are Lean `String`s; trimming and lower-casing are defined on the
  underlying character lists.
-/

namespace ExpiryMgr

/-- A parsed JS `Date` normalized to midnight: `none` is an Invalid Date. -/
abbrev JSDate := Option Int

/-- Milliseconds per day, the divisor used by the source for day arithmetic. -/
def msPerDay : Int := 1000 * 60 * 60 * 24

/-- Integer `Math.ceil (a / b)` for `b > 0`, as used by the source. -/
def jsCeilDiv (a b : Int) : Int := -((-a).fdiv b)

/-- Integer `Math.floor (a / b)` for `b > 0`. -/
def jsFloorDiv (a b : Int) : Int := a.fdiv b

/-- Days from the civil epoch 1970-01-01 for a Gregorian calendar date
(Howard Hinnant's `days_from_civil`); this is what `new Date('YYYY-MM-DD')`
divided by `msPerDay` yields. -/
def civilToDays (y m d : Int) : Int :=
  let y2 := if m ≤ 2 then y - 1 else y
  let era := y2.fdiv 400
  let yoe := y2 - era * 400
  let mp := (m + 9).emod 12
  let doy := (153 * mp + 2).fdiv 5 + d - 1
  let doe := yoe * 365 + yoe.fdiv 4 - yoe.fdiv 100 + doy
  era * 146097 + doe - 719468

/-- The JS whitespace characters relevant to `String.prototype.trim` here. -/
def isJsSpace (c : Char) : Bool := c == ' ' || c == '\t' || c == '\n' || c == '\r'

/-- JS `trim` on a character list: drop whitespace at both ends. -/
def jsTrimList (l : List Char) : List Char :=
  ((l.dropWhile isJsSpace).reverse.dropWhile isJsSpace).reverse

/-- JS `String.prototype.trim`. -/
def jsTrim (s : String) : String := String.mk (jsTrimList s.data)

/-- JS `String.prototype.toLowerCase` on a character list (ASCII letters). -/
def lowerList (l : List Char) : List Char := l.map Char.toLower

/-- JS falsiness of a string value: absent (`none`) or the empty string. -/
def strTruthy (o : Option String) : Bool :=
  match o with
  | none => false
  | some s => !s.data.isEmpty

/-- The string carried by an optional field, `""` when absent. -/
def strVal (o : Option String) : String := o.getD ""

/-- JS `a || b` on strings: `b` when `a` is falsy. -/
def jsOrStr (o : Option String) (d : String) : String :=
  if strTruthy o then strVal o else d

/-- Emptiness of a string, JS `s.length === 0`. -/
def strEmpty (s : String) : Bool := s.data.isEmpty

/-- Whether `needle` matches at the head of `hay`. -/
def leadMatch : List Char → List Char → Bool
  | [], _ => true
  | _ :: _, [] => false
  | a :: as, b :: bs => a == b && leadMatch as bs

/-- JS `hay.includes(needle)`: `needle` occurs contiguously in `hay`. -/
def hasSub (needle hay : List Char) : Bool :=
  match hay with
  | [] => needle.isEmpty
  | _ :: t => leadMatch needle hay || hasSub needle t

/-- The parse result of a date-valued field: a falsy field (absent or `''`)
parses as an Invalid Date. -/
def dateVal (f : Option JSDate) : JSDate := f.getD none

/-! ## Data model (src/js/dataModel.js) -/

/-- Raw input data for `createIngredient` / `validateIngredient`; each field
may be absent.  Date fields carry their parse result (see module docstring). -/
structure IngredientData where
  name : Option String := none
  category : Option String := none
  purchaseDate : Option JSDate := none
  expirationDate : Option JSDate := none
  quantity : Option String := none
  location : Option String := none
  notes : Option String := none
deriving DecidableEq

/-- A stored ingredient record as produced by `createIngredient`. -/
structure Ingredient where
  id : String
  name : String
  category : String
  purchaseDate : Option JSDate
  expirationDate : Option JSDate
  quantity : String
  location : String
  notes : String
  createdAt : Int
  updatedAt : Int
deriving DecidableEq

/-- Embedding of `createIngredient(data)` (dataModel.js:20).  `uuid` stands for the fresh
`generateUUID()` value, `today` for `getTodayString()` (a valid date string
for the current day), and `now` for `new Date().toISOString()`. -/
def createIngredient (data : IngredientData) (uuid : String) (today : Int)
    (now : Int) : Ingredient :=
  { id := uuid
    name := jsTrim (jsOrStr data.name "")
    category := jsOrStr data.category ""
    purchaseDate :=
      match data.purchaseDate with
      | none => some (some today)
      | some jd => some jd
    expirationDate := data.expirationDate
    quantity := jsTrim (jsOrStr data.quantity "")
    location := jsTrim (jsOrStr data.location "")
    notes := jsTrim (jsOrStr data.notes "")
    createdAt := now
    updatedAt := now }

/-- Viewing a stored record as validation input (JS passes the record object
straight to `validateIngredient`). -/
def Ingredient.toData (ing : Ingredient) : IngredientData :=
  { name := some ing.name
    category := some ing.category
    purchaseDate := ing.purchaseDate
    expirationDate := ing.expirationDate
    quantity := some ing.quantity
    location := some ing.location
    notes := some ing.notes }

/-- The field-keyed error object built by `validateIngredient`. -/
structure VErrors where
  name : Option String
  category : Option String
  expirationDate : Option String
  purchaseDate : Option String
deriving DecidableEq

/-- JS `Object.keys(errors).length`. -/
def VErrors.count (e : VErrors) : Nat :=
  e.name.toList.length + e.category.toList.length +
    e.expirationDate.toList.length + e.purchaseDate.toList.length

/-- The `{ valid, errors }` result of `validateIngredient`. -/
structure ValidationResult where
  valid : Bool
  errors : VErrors
deriving DecidableEq

/-- The `name` checks of `validateIngredient` (dataModel.js:46-50). -/
def nameError (data : IngredientData) : Option String :=
  if !strTruthy data.name || strEmpty (jsTrim (strVal data.name)) then
    some "名前を入力してください"
  else if 100 < (jsTrim (strVal data.name)).length then
    some "名前は100文字以内で入力してください"
  else none

/-- The `category` check of `validateIngredient` (dataModel.js:53-55). -/
def categoryError (data : IngredientData) : Option String :=
  if !strTruthy data.category || strEmpty (jsTrim (strVal data.category)) then
    some "カテゴリーを選択してください"
  else none

/-- The `expirationDate` checks of `validateIngredient` (dataModel.js:58-66). -/
def expirationError (data : IngredientData) : Option String :=
  match data.expirationDate with
  | none => some "賞味期限を入力してください"
  | some none => some "有効な日付を入力してください"
  | some (some _) => none

/-- JS `purDate > expDate` with `NaN` semantics (false unless both valid). -/
def jsGtD (a b : JSDate) : Bool :=
  match a, b with
  | some x, some y => decide (y < x)
  | _, _ => false

/-- The `purchaseDate` checks of `validateIngredient` (dataModel.js:69-82);
the ordering check overwrites the parse-failure message when it fires. -/
def purchaseError (data : IngredientData) : Option String :=
  match data.purchaseDate with
  | none => none
  | some pd =>
    let parseErr : Option String :=
      if pd.isNone then some "有効な日付を入力してください" else none
    match data.expirationDate with
    | none => parseErr
    | some ed =>
      if jsGtD pd ed then some "購入日は賞味期限より前である必要があります"
      else parseErr

/-- The error object accumulated by `validateIngredient`. -/
def validationErrors (data : IngredientData) : VErrors :=
  { name := nameError data
    category := categoryError data
    expirationDate := expirationError data
    purchaseDate := purchaseError data }

/-- Embedding of `validateIngredient(data)` (dataModel.js:42): the errors,
with `valid = (Object.keys(errors).length === 0)`. -/
def validateIngredient (data : IngredientData) : ValidationResult :=
  { valid := (validationErrors data).count == 0, errors := validationErrors data }

/-- Embedding of `calculateDaysRemaining(expirationDate)` (dataModel.js:95), with the
ambient `new Date()` made explicit as `today`.  An Invalid Date propagates
`NaN` (`none`) through the subtraction and `Math.ceil`; nothing throws, so
the `catch` branch returning 0 is unreachable. -/
def calculateDaysRemaining (expirationDate : JSDate) (today : Int) : Option Int :=
  match expirationDate with
  | none => none
  | some e => some (jsCeilDiv ((e - today) * msPerDay) msPerDay)

/-- The four expiration status buckets. -/
inductive Status
  | expired
  | critical
  | warning
  | fresh
deriving DecidableEq

/-- JS `a < b` where `a` may be `NaN`. -/
def jsLtN (a : Option Int) (b : Int) : Bool :=
  match a with
  | none => false
  | some x => decide (x < b)

/-- JS `a <= b` where `a` may be `NaN`. -/
def jsLeN (a : Option Int) (b : Int) : Bool :=
  match a with
  | none => false
  | some x => decide (x ≤ b)

/-- The threshold bucketing of `getExpirationStatus` (dataModel.js:121-129)
as a function of the computed `daysRemaining` value. -/
def statusOfDays (d : Int) : Status :=
  if d < 0 then .expired
  else if d ≤ 3 then .critical
  else if d ≤ 7 then .warning
  else .fresh

/-- Embedding of `getExpirationStatus(ingredient)` (dataModel.js:118). -/
def getExpirationStatus (ing : Ingredient) (today : Int) : Status :=
  let d := calculateDaysRemaining (dateVal ing.expirationDate) today
  if jsLtN d 0 then .expired
  else if jsLeN d 3 then .critical
  else if jsLeN d 7 then .warning
  else .fresh

/-- The status strings used across the code base. -/
def statusToString : Status → String
  | .expired => "expired"
  | .critical => "critical"
  | .warning => "warning"
  | .fresh => "fresh"

/-- The `statusOrder` severity ranks in `sortIngredients` (dataModel.js:172). -/
def statusOrder : Status → Nat
  | .expired => 0
  | .critical => 1
  | .warning => 2
  | .fresh => 3

/-! ## Storage update (src/js/storage.js, localStorage variant) -/

/-- An `updates` object of optional fields for `updateIngredient`; `none` means the key
is absent from the object (so the spread keeps the original value). -/
structure Updates where
  name : Option String := none
  category : Option String := none
  purchaseDate : Option (Option JSDate) := none
  expirationDate : Option (Option JSDate) := none
  quantity : Option String := none
  location : Option String := none
  notes : Option String := none
  id : Option String := none
  createdAt : Option Int := none
  updatedAt : Option Int := none
deriving DecidableEq

/-- The merge `{...orig, ...updates, id: orig.id, updatedAt: now}` of
`updateIngredient` (storage.js:183-188).  Only `id` and `updatedAt` are
pinned after the spread; a `createdAt` in `updates` overrides the original. -/
def mergeIngredient (orig : Ingredient) (u : Updates) (now : Int) : Ingredient :=
  { id := orig.id
    name := u.name.getD orig.name
    category := u.category.getD orig.category
    purchaseDate := u.purchaseDate.getD orig.purchaseDate
    expirationDate := u.expirationDate.getD orig.expirationDate
    quantity := u.quantity.getD orig.quantity
    location := u.location.getD orig.location
    notes := u.notes.getD orig.notes
    createdAt := u.createdAt.getD orig.createdAt
    updatedAt := now }

/-- Embedding of `updateIngredient(id, updates)` (storage.js:173): replace the first
record whose `id` matches; `none` models the not-found failure path, where
nothing is saved back to storage. -/
def updateIngredient (store : List Ingredient) (id : String) (u : Updates)
    (now : Int) : Option (List Ingredient) :=
  match store with
  | [] => none
  | ing :: rest =>
    if ing.id = id then some (mergeIngredient ing u now :: rest)
    else (updateIngredient rest id u now).map (ing :: ·)

/-! ## Filtering and search (dataModel.js `filterIngredients`,
search.js `searchIngredients`) -/

/-- The filter criteria object; date bounds carry their parse result, outer
`none` being a falsy (absent/empty) criterion. -/
structure Filters where
  search : Option String := none
  category : Option String := none
  status : Option String := none
  startDate : Option JSDate := none
  endDate : Option JSDate := none
deriving DecidableEq

/-- The query value `filters.search.toLowerCase().trim()`. -/
def queryOf (s : String) : List Char := jsTrimList (lowerList s.data)

/-- The per-record search test of `filterIngredients` (dataModel.js:211-215):
name, category, and (when truthy) notes — location is not consulted. -/
def searchHit (q : List Char) (ing : Ingredient) : Bool :=
  hasSub q (lowerList ing.name.data) ||
  hasSub q (lowerList ing.category.data) ||
  (!strEmpty ing.notes && hasSub q (lowerList ing.notes.data))

/-- The per-record search test of `searchIngredients` (search.js:161-166):
name, category, notes, and location. -/
def searchHitLoc (q : List Char) (ing : Ingredient) : Bool :=
  hasSub q (lowerList ing.name.data) ||
  hasSub q (lowerList ing.category.data) ||
  (!strEmpty ing.notes && hasSub q (lowerList ing.notes.data)) ||
  (!strEmpty ing.location && hasSub q (lowerList ing.location.data))

/-- JS `a >= b` on dates with `NaN` semantics. -/
def jsGeD (a b : JSDate) : Bool :=
  match a, b with
  | some x, some y => decide (y ≤ x)
  | _, _ => false

/-- JS `a <= b` on dates with `NaN` semantics. -/
def jsLeD (a b : JSDate) : Bool :=
  match a, b with
  | some x, some y => decide (x ≤ y)
  | _, _ => false

/-- One `if (criterion) { filtered = filtered.filter(p) }` step. -/
def condFilter (active : Bool) (p : Ingredient → Bool) (l : List Ingredient) :
    List Ingredient :=
  if active then l.filter p else l

/-- Embedding of `filterIngredients(ingredients, filters)` (dataModel.js:205), with the
ambient current date made explicit as `today`. -/
def filterIngredients (ings : List Ingredient) (f : Filters) (today : Int) :
    List Ingredient :=
  let l1 := condFilter (strTruthy f.search)
    (searchHit (queryOf (strVal f.search))) ings
  let l2 := condFilter (strTruthy f.category)
    (fun ing => ing.category == strVal f.category) l1
  let l3 := condFilter (strTruthy f.status)
    (fun ing => statusToString (getExpirationStatus ing today) == strVal f.status) l2
  let l4 := condFilter f.startDate.isSome
    (fun ing => jsGeD (dateVal ing.expirationDate) (dateVal f.startDate)) l3
  let l5 := condFilter f.endDate.isSome
    (fun ing => jsLeD (dateVal ing.expirationDate) (dateVal f.endDate)) l4
  l5

/-- Embedding of `searchIngredients(ingredients, query)` (search.js:153). -/
def searchIngredients (ings : List Ingredient) (query : Option String) :
    List Ingredient :=
  if !strTruthy query || strEmpty (jsTrim (strVal query)) then ings
  else ings.filter (searchHitLoc (queryOf (strVal query)))

/-! ## Sorting (dataModel.js `sortIngredients`) -/

/-- The sort keys accepted by `sortIngredients` (its `default` branch, for
any other key, compares everything equal and is outside the spec). -/
inductive SortKey
  | name
  | expiration
  | status
  | category
  | purchase
deriving DecidableEq

/-- Order `'asc'` or `'desc'`. -/
inductive SortOrder
  | asc
  | desc
deriving DecidableEq

/-- A `compareA`/`compareB` value of the sort comparator: a lower-cased
string, a `Date` (possibly invalid), or a `statusOrder` rank. -/
inductive CmpV
  | str : List Char → CmpV
  | date : JSDate → CmpV
  | num : Nat → CmpV
deriving DecidableEq

/-- JS `<` on two strings: lexicographic order on their characters. -/
def lexLt : List Char → List Char → Bool
  | [], [] => false
  | [], _ :: _ => true
  | _ :: _, [] => false
  | a :: as, b :: bs => if a < b then true else if b < a then false else lexLt as bs

/-- JS `<` on comparator values (`NaN` dates compare false both ways). -/
def cmpVLt : CmpV → CmpV → Bool
  | .str a, .str b => lexLt a b
  | .date a, .date b =>
    match a, b with
    | some x, some y => decide (x < y)
    | _, _ => false
  | .num a, .num b => decide (a < b)
  | _, _ => false

/-- The `compareA` value for a record under a sort key (dataModel.js:160-185);
`'1900-01-01'` is the fallback for a falsy `purchaseDate`. -/
def keyOf (k : SortKey) (today : Int) (ing : Ingredient) : CmpV :=
  match k with
  | .name => .str (lowerList ing.name.data)
  | .expiration => .date (dateVal ing.expirationDate)
  | .status => .num (statusOrder (getExpirationStatus ing today))
  | .category => .str (lowerList ing.category.data)
  | .purchase => .date
    (match ing.purchaseDate with
     | none => some (civilToDays 1900 1 1)
     | some jd => jd)

/-- The comparator passed to `sorted.sort` (dataModel.js:157-194). -/
def comparator (k : SortKey) (ord : SortOrder) (today : Int)
    (a b : Ingredient) : Int :=
  let A := keyOf k today a
  let B := keyOf k today b
  if cmpVLt A B then (match ord with | .asc => -1 | .desc => 1)
  else if cmpVLt B A then (match ord with | .asc => 1 | .desc => -1)
  else 0

/-- Embedding of `sortIngredients(ingredients, sortBy, order)` (dataModel.js:154): a
stable sort of a copy of the input, keeping `a` before `b` whenever the
comparator does not require swapping them. -/
def sortIngredients (l : List Ingredient) (k : SortKey) (ord : SortOrder)
    (today : Int) : List Ingredient :=
  List.mergeSort l (fun a b => decide (comparator k ord today a b ≤ 0))

/-! ## Timeline bar layout (ganttChart module, `calculateBarPosition`) -/

/-- The `TIMELINE_DAYS` constant of the gantt chart module. -/
def timelineDays : Int := 90

/-- The `{ left, width, visible, daysFromToday, duration }` result of
`calculateBarPosition`; `none` components model `NaN`. -/
structure BarPosition where
  left : Option ℚ
  width : Option ℚ
  visible : Bool
  daysFromToday : Option Int
  duration : Option Int
deriving DecidableEq

/-- JS `0 <= a` where `a` may be `NaN`. -/
def jsGeZ (a : Option Int) : Bool :=
  match a with
  | none => false
  | some x => decide (0 ≤ x)

/-- Embedding of `calculateBarPosition(ingredient)` with the window width `w`
(`TIMELINE_DAYS` in the source) and the ambient `new Date()` made explicit. -/
def calculateBarPositionW (w : Int) (today : Int) (ing : Ingredient) :
    BarPosition :=
  let purchaseDate : JSDate :=
    match ing.purchaseDate with
    | none => some today
    | some jd => jd
  let expirationDate : JSDate := dateVal ing.expirationDate
  let daysFromToday : Option Int :=
    purchaseDate.map (fun p => jsFloorDiv ((p - today) * msPerDay) msPerDay)
  let leftPercent : Option ℚ :=
    daysFromToday.map (fun d => max 0 ((Int.cast d : ℚ) / (w : ℚ) * 100))
  let duration : Option Int :=
    match expirationDate, purchaseDate with
    | some e, some p => some (jsFloorDiv ((e - p) * msPerDay) msPerDay)
    | _, _ => none
  let widthPercent : Option ℚ :=
    duration.map (fun d => (Int.cast d : ℚ) / (w : ℚ) * 100)
  let expDays : Option Int :=
    expirationDate.map (fun e => jsFloorDiv ((e - today) * msPerDay) msPerDay)
  { left := leftPercent.map (fun x => min x 100)
    width :=
      match widthPercent, leftPercent with
      | some wp, some lp => some (max 0 (min wp (100 - lp)))
      | _, _ => none
    visible := jsGeZ expDays && jsLtN daysFromToday w
    daysFromToday := daysFromToday
    duration := duration }

/-- Embedding of `calculateBarPosition` as shipped, with `TIMELINE_DAYS = 90`. -/
def calculateBarPosition (today : Int) (ing : Ingredient) : BarPosition :=
  calculateBarPositionW timelineDays today ing

/-! ## Statistics (dataModel.js `getIngredientStats`) -/

/-- The statistics object; `byCategory` is the JS object as an association
list in insertion order. -/
structure Stats where
  total : Nat
  expired : Nat
  critical : Nat
  warning : Nat
  fresh : Nat
  byCategory : List (String × Nat)
deriving DecidableEq

/-- JS `stats[status]++`. -/
def bumpStatus (s : Stats) (st : Status) : Stats :=
  match st with
  | .expired => { s with expired := s.expired + 1 }
  | .critical => { s with critical := s.critical + 1 }
  | .warning => { s with warning := s.warning + 1 }
  | .fresh => { s with fresh := s.fresh + 1 }

/-- Initialize-if-absent then increment of `stats.byCategory[cat]`. -/
def bumpCategory : List (String × Nat) → String → List (String × Nat)
  | [], c => [(c, 1)]
  | (k, v) :: t, c =>
    if k = c then (k, v + 1) :: t else (k, v) :: bumpCategory t c

/-- Embedding of `getIngredientStats(ingredients)` (dataModel.js:289). -/
def getIngredientStats (l : List Ingredient) (today : Int) : Stats :=
  l.foldl
    (fun s ing =>
      let s1 := bumpStatus s (getExpirationStatus ing today)
      { s1 with byCategory := bumpCategory s1.byCategory ing.category })
    { total := l.length, expired := 0, critical := 0, warning := 0, fresh := 0,
      byCategory := [] }

/-- Sum of the per-category counts. -/
def sumCats (m : List (String × Nat)) : Nat := (m.map Prod.snd).sum

/-! ## Basic arithmetic lemmas -/

theorem msPerDay_pos : (0 : Int) < msPerDay := by decide

theorem jsCeilDiv_mul (a b : Int) (h : b ≠ 0) : jsCeilDiv (a * b) b = a := by
  unfold jsCeilDiv
  rw [← Int.neg_mul, Int.mul_fdiv_cancel _ h, neg_neg]

theorem jsFloorDiv_mul (a b : Int) (h : b ≠ 0) : jsFloorDiv (a * b) b = a := by
  unfold jsFloorDiv
  exact Int.mul_fdiv_cancel _ h

theorem calculateDaysRemaining_valid (e t : Int) :
    calculateDaysRemaining (some e) t = some (e - t) := by
  simp [calculateDaysRemaining, jsCeilDiv_mul _ _ (by decide : msPerDay ≠ 0)]

theorem getExpirationStatus_eq_statusOfDays (ing : Ingredient) (today e : Int)
    (h : dateVal ing.expirationDate = some e) :
    getExpirationStatus ing today = statusOfDays (e - today) := by
  unfold getExpirationStatus
  rw [h, calculateDaysRemaining_valid]
  simp only [statusOfDays, jsLtN, jsLeN]
  split_ifs <;> simp_all

/-! ## Claim C1: status bucket boundaries -/

/-- C1: for every integer `daysRemaining` value `d`, the bucketing of
`getExpirationStatus` assigns exactly one of the four statuses, with
`d < 0 ↔ expired`, `0 ≤ d ≤ 3 ↔ critical`, `4 ≤ d ≤ 7 ↔ warning`,
`8 ≤ d ↔ fresh`; the stated boundary points land as claimed; and for an
ingredient whose expiration date parses, `getExpirationStatus` is exactly
this bucketing applied to the day difference. -/
theorem C1_status_buckets :
    (∀ d : Int,
      (statusOfDays d = .expired ↔ d < 0) ∧
      (statusOfDays d = .critical ↔ 0 ≤ d ∧ d ≤ 3) ∧
      (statusOfDays d = .warning ↔ 4 ≤ d ∧ d ≤ 7) ∧
      (statusOfDays d = .fresh ↔ 8 ≤ d)) ∧
    statusOfDays (-1) = .expired ∧ statusOfDays 0 = .critical ∧
    statusOfDays 3 = .critical ∧ statusOfDays 4 = .warning ∧
    statusOfDays 7 = .warning ∧ statusOfDays 8 = .fresh ∧
    (∀ (ing : Ingredient) (today e : Int),
      dateVal ing.expirationDate = some e →
      getExpirationStatus ing today = statusOfDays (e - today)) := by
  refine ⟨fun d => ⟨?_, ?_, ?_, ?_⟩, by decide, by decide, by decide, by decide,
    by decide, by decide, getExpirationStatus_eq_statusOfDays⟩ <;>
    · unfold statusOfDays
      split_ifs <;> simp_all <;> omega

/-- Witness for C1 at a concrete record: expiration 3 days after the
reference date is `critical`. -/
theorem C1_status_buckets_witness :
    getExpirationStatus
      { id := "w1", name := "Milk", category := "Dairy", purchaseDate := none,
        expirationDate := some (some 3), quantity := "", location := "",
        notes := "", createdAt := 0, updatedAt := 0 } 0 = .critical := by
  have h := C1_status_buckets.2.2.2.2.2.2.2
    { id := "w1", name := "Milk", category := "Dairy", purchaseDate := none,
      expirationDate := some (some 3), quantity := "", location := "",
      notes := "", createdAt := 0, updatedAt := 0 } 0 3 (by decide)
  rw [h]
  decide

/-! ## Claim C2: days remaining -/

/-- C2: for every expiration date that parses and every reference date,
`calculateDaysRemaining` is the (exact, hence ceiling-rounded) difference in
whole days between the two midnights; it is negative exactly when the
expiration date is strictly before the reference day; and for reference
2025-01-05 with expiration 2025-01-08 it returns 3. -/
theorem C2_days_remaining :
    (∀ e t : Int, calculateDaysRemaining (some e) t = some (e - t)) ∧
    (∀ e t : Int, jsLtN (calculateDaysRemaining (some e) t) 0 = decide (e < t)) ∧
    calculateDaysRemaining (some (civilToDays 2025 1 8)) (civilToDays 2025 1 5) =
      some 3 := by
  refine ⟨calculateDaysRemaining_valid, fun e t => ?_, by decide⟩
  rw [calculateDaysRemaining_valid]
  simp only [jsLtN, decide_eq_decide]
  omega

/-! ## Claim C9: malformed dates do not fall back to zero -/

/-- C9 (divergence witness): on an expiration date that does not parse,
`calculateDaysRemaining` propagates `NaN` (`none`) — the Invalid Date never
throws, so the `catch` fallback to 0 is dead code and the result is not 0;
`calculateBarPosition` on such a record does yield a non-rendered
(`visible = false`) bar. -/
theorem C9_nan_not_zero :
    calculateDaysRemaining none 0 = none ∧
    (∀ t : Int, calculateDaysRemaining none t ≠ some 0) ∧
    (calculateBarPosition 0
      { id := "b", name := "n", category := "c", purchaseDate := some (some 0),
        expirationDate := some none, quantity := "", location := "",
        notes := "", createdAt := 0, updatedAt := 0 }).visible = false ∧
    (calculateBarPosition 0
      { id := "b", name := "n", category := "c", purchaseDate := some none,
        expirationDate := some (some 10), quantity := "", location := "",
        notes := "", createdAt := 0, updatedAt := 0 }).visible = false := by
  refine ⟨rfl, fun t => ?_, by decide, by decide⟩
  simp [calculateDaysRemaining]

/-- Witness for C9 at a concrete reference day. -/
theorem C9_nan_not_zero_witness :
    calculateDaysRemaining none 5 ≠ some 0 :=
  C9_nan_not_zero.2.1 5

/-! ## Trim lemmas -/

theorem dropWhile_head_false {p : α → Bool} :
    ∀ {l : List α} {a : α} {t : List α}, l.dropWhile p = a :: t → p a = false := by
  intro l
  induction l with
  | nil => intro a t h; simp at h
  | cons x xs ih =>
    intro a t h
    by_cases hx : p x
    · rw [List.dropWhile_cons_of_pos hx] at h
      exact ih h
    · rw [List.dropWhile_cons_of_neg hx] at h
      cases h
      simpa using hx

theorem dropWhile_idem (p : α → Bool) (l : List α) :
    (l.dropWhile p).dropWhile p = l.dropWhile p := by
  cases h : l.dropWhile p with
  | nil => rfl
  | cons a t =>
    exact List.dropWhile_cons_of_neg (by simp [dropWhile_head_false h])

theorem dropWhile_eq_self_of_leading {p : α → Bool} {l₁ l₂ : List α}
    (h : l₁ <+: l₂) (h2 : l₂.dropWhile p = l₂) : l₁.dropWhile p = l₁ := by
  cases l₁ with
  | nil => rfl
  | cons a t =>
    obtain ⟨r, hr⟩ := h
    have hpa : p a = false := by
      apply dropWhile_head_false (l := l₂) (t := t ++ r)
      rw [h2, ← hr]
      simp
    exact List.dropWhile_cons_of_neg (by simp [hpa])

theorem jsTrimList_idem (l : List Char) :
    jsTrimList (jsTrimList l) = jsTrimList l := by
  unfold jsTrimList
  have hA : (l.dropWhile isJsSpace).dropWhile isJsSpace = l.dropWhile isJsSpace :=
    dropWhile_idem _ _
  set A := l.dropWhile isJsSpace with hAdef
  set B := A.reverse.dropWhile isJsSpace with hBdef
  have hBsuf : B <:+ A.reverse := List.dropWhile_suffix _
  have hpre : B.reverse <+: A := by
    obtain ⟨t, ht⟩ := hBsuf
    refine ⟨t.reverse, ?_⟩
    have h4 := congrArg List.reverse ht
    simpa [List.reverse_append] using h4
  have h1 : B.reverse.dropWhile isJsSpace = B.reverse :=
    dropWhile_eq_self_of_leading hpre hA
  have h2 : B.dropWhile isJsSpace = B := by
    rw [hBdef]
    exact dropWhile_idem _ _
  rw [h1]
  rw [List.reverse_reverse, h2]

theorem jsTrim_idem (s : String) : jsTrim (jsTrim s) = jsTrim s :=
  congrArg String.mk (jsTrimList_idem s.data)

theorem jsTrimList_nil : jsTrimList ([] : List Char) = [] := rfl

theorem strEmpty_jsTrim_of_isEmpty {s : String} (h : s.data.isEmpty = true) :
    strEmpty (jsTrim s) = true := by
  have hd : s.data = [] := by simpa using h
  show (jsTrimList s.data).isEmpty = true
  rw [hd, jsTrimList_nil]
  rfl

/-! ## Claim C8: validateIngredient characterization -/

/-- C8: `validateIngredient` is pure; `valid` holds exactly when the error
mapping is empty; and each field error fires exactly under the claimed
conditions (name absent/blank/overlong, category absent/blank, expiration
absent/unparseable, purchase present-and-unparseable or parsed-after-a-parsed
expiration). -/
theorem C8_validate_characterization :
    ∀ data : IngredientData,
      ((validateIngredient data).valid = true ↔
        (validateIngredient data).errors = ⟨none, none, none, none⟩) ∧
      ((validateIngredient data).errors.name ≠ none ↔
        data.name = none ∨ strEmpty (jsTrim (strVal data.name)) = true ∨
          100 < (jsTrim (strVal data.name)).length) ∧
      ((validateIngredient data).errors.category ≠ none ↔
        data.category = none ∨ strEmpty (jsTrim (strVal data.category)) = true) ∧
      ((validateIngredient data).errors.expirationDate ≠ none ↔
        data.expirationDate = none ∨ data.expirationDate = some none) ∧
      ((validateIngredient data).errors.purchaseDate ≠ none ↔
        ∃ pd, data.purchaseDate = some pd ∧
          (pd = none ∨ ∃ p e, pd = some p ∧
            data.expirationDate = some (some e) ∧ e < p)) := by
  intro data
  refine ⟨?_, ?_, ?_, ?_, ?_⟩
  · show ((validationErrors data).count == 0) = true ↔ validationErrors data = _
    obtain ⟨a, b, c, d⟩ := validationErrors data
    cases a <;> cases b <;> cases c <;> cases d <;> simp [VErrors.count]
  · show nameError data ≠ none ↔ _
    unfold nameError
    cases hn : data.name with
    | none => simp [strTruthy]
    | some s =>
      simp only [strTruthy, strVal, Option.getD]
      by_cases hs : s.data.isEmpty = true
      · have hE := strEmpty_jsTrim_of_isEmpty hs
        simp [hs, hE]
      · by_cases hE : strEmpty (jsTrim s) = true <;>
          by_cases hL : 100 < (jsTrim s).length <;>
          simp_all
  · show categoryError data ≠ none ↔ _
    unfold categoryError
    cases hn : data.category with
    | none => simp [strTruthy]
    | some s =>
      simp only [strTruthy, strVal, Option.getD]
      by_cases hs : s.data.isEmpty = true
      · have hE := strEmpty_jsTrim_of_isEmpty hs
        simp [hs, hE]
      · by_cases hE : strEmpty (jsTrim s) = true <;> simp_all
  · show expirationError data ≠ none ↔ _
    unfold expirationError
    rcases data.expirationDate with _ | (_ | e) <;> simp
  · show purchaseError data ≠ none ↔ _
    unfold purchaseError
    rcases hp : data.purchaseDate with _ | (_ | p) <;>
      rcases he : data.expirationDate with _ | (_ | e) <;>
      simp_all [jsGtD]

/-- Witness for C8 at concrete data: a record with a blank name and a
purchase date after its expiration date is invalid with exactly the
corresponding field errors. -/
theorem C8_validate_characterization_witness :
    ((validateIngredient
        { name := some " ", category := some "Dairy",
          purchaseDate := some (some 9), expirationDate := some (some 3) }).errors.name
      ≠ none) ∧
    ((validateIngredient
        { name := some " ", category := some "Dairy",
          purchaseDate := some (some 9), expirationDate := some (some 3) }).errors.purchaseDate
      ≠ none) ∧
    (validateIngredient
        { name := some " ", category := some "Dairy",
          purchaseDate := some (some 9), expirationDate := some (some 3) }).valid
      = false := by
  refine ⟨?_, ?_, by decide⟩
  · exact (C8_validate_characterization
      { name := some " ", category := some "Dairy",
        purchaseDate := some (some 9), expirationDate := some (some 3) }).2.1.mpr
      (Or.inr (Or.inl (by decide)))
  · exact (C8_validate_characterization
      { name := some " ", category := some "Dairy",
        purchaseDate := some (some 9), expirationDate := some (some 3) }).2.2.2.2.mpr
      ⟨some 9, rfl, Or.inr ⟨9, 3, rfl, rfl, by decide⟩⟩

/-! ## Claim C3: validate ∘ create (corrected) -/

/-- Data meeting every validation rule (valid on its own) whose expiration
date lies strictly before the creation day. -/
def c3Data : IngredientData :=
  { name := some "Milk", category := some "Dairy",
    expirationDate := some (some (-1)) }

/-- Counterexample to C3 as stated: `c3Data` satisfies all the required
validation rules (indeed `validateIngredient c3Data` is valid), yet
`validateIngredient (createIngredient c3Data)` is invalid, because
`createIngredient` defaults the absent `purchaseDate` to the creation day,
which is after the expiration date. -/
theorem C3_counterexample :
    (validateIngredient c3Data).valid = true ∧
    (validateIngredient ((createIngredient c3Data "u" 0 0).toData)).valid = false ∧
    (validateIngredient ((createIngredient c3Data "u" 0 0).toData)).errors.purchaseDate
      ≠ none := by
  refine ⟨by decide, by decide, by decide⟩

theorem strTruthy_of_trim {s : String} (h : strEmpty (jsTrim s) = false) :
    s.data.isEmpty = false := by
  by_contra hc
  have : s.data.isEmpty = true := by
    cases hh : s.data.isEmpty
    · exact absurd hh hc
    · rfl
  rw [strEmpty_jsTrim_of_isEmpty this] at h
  cases h

theorem jsOrStr_of_truthy {s : String} (h : s.data.isEmpty = false) :
    jsOrStr (some s) "" = s := by
  simp [jsOrStr, strTruthy, strVal, h]

/-- C3 (amended): if the data satisfies the validation rules **and**, when
`purchaseDate` is absent, the expiration date is not before the creation day
(`createIngredient` fills the absent `purchaseDate` with today), then the
created record validates. -/
theorem C3_amended_create_validates
    (data : IngredientData) (uuid : String) (today now : Int) (ns cs : String)
    (e : Int)
    (hn : data.name = some ns) (hne : strEmpty (jsTrim ns) = false)
    (hnl : (jsTrim ns).length ≤ 100)
    (hc : data.category = some cs) (hce : strEmpty (jsTrim cs) = false)
    (hex : data.expirationDate = some (some e))
    (hp : (data.purchaseDate = none ∧ today ≤ e) ∨
      (∃ p, data.purchaseDate = some (some p) ∧ p ≤ e)) :
    (validateIngredient ((createIngredient data uuid today now).toData)).valid
      = true := by
  have hns : ns.data.isEmpty = false := strTruthy_of_trim hne
  have hcs : cs.data.isEmpty = false := strTruthy_of_trim hce
  have hname : (createIngredient data uuid today now).name = jsTrim ns := by
    simp [createIngredient, hn, jsOrStr_of_truthy hns]
  have hcat : (createIngredient data uuid today now).category = cs := by
    simp [createIngredient, hc, jsOrStr_of_truthy hcs]
  have hexp : (createIngredient data uuid today now).expirationDate
      = some (some e) := by
    simp [createIngredient, hex]
  set created := createIngredient data uuid today now with hcr
  have h1 : nameError created.toData = none := by
    unfold nameError
    simp only [Ingredient.toData, hname]
    have htr : strEmpty (jsTrim (jsTrim ns)) = false := by
      rw [jsTrim_idem]; exact hne
    have hlen : ¬ 100 < (jsTrim (jsTrim ns)).length := by
      rw [jsTrim_idem]; omega
    have hne2 : (jsTrim ns).data ≠ [] := by simpa [strEmpty] using hne
    simp [strTruthy, strVal, hne2, htr, hlen]
  have h2 : categoryError created.toData = none := by
    unfold categoryError
    simp only [Ingredient.toData, hcat]
    have hcs2 : cs.data ≠ [] := by simpa using hcs
    simp [strTruthy, strVal, hcs2, hce]
  have h3 : expirationError created.toData = none := by
    unfold expirationError
    simp only [Ingredient.toData, hexp]
  have h4 : purchaseError created.toData = none := by
    unfold purchaseError
    simp only [Ingredient.toData, hexp]
    rcases hp with ⟨hnone, hle⟩ | ⟨p, hsome, hle⟩
    · have : created.purchaseDate = some (some today) := by
        simp [hcr, createIngredient, hnone]
      rw [this]
      simp [jsGtD]
      omega
    · have : created.purchaseDate = some (some p) := by
        simp [hcr, createIngredient, hsome]
      rw [this]
      simp [jsGtD]
      omega
  show ((validationErrors created.toData).count == 0) = true
  unfold validationErrors
  rw [h1, h2, h3, h4]
  rfl

/-- Witness for the amended C3: concrete well-formed data round-trips
through create and validate. -/
theorem C3_amended_create_validates_witness :
    (validateIngredient
      ((createIngredient
        { name := some "Milk", category := some "Dairy",
          expirationDate := some (some 5) } "u" 0 0).toData)).valid = true := by
  exact C3_amended_create_validates
    { name := some "Milk", category := some "Dairy",
      expirationDate := some (some 5) } "u" 0 0 "Milk" "Dairy" 5
    rfl (by decide) (by decide) rfl (by decide) rfl (Or.inl ⟨rfl, by decide⟩)

/-! ## Claim C4: updateIngredient (corrected) -/

theorem updateIngredient_not_found :
    ∀ (store : List Ingredient) (id : String) (u : Updates) (now : Int),
      (∀ ing ∈ store, ing.id ≠ id) → updateIngredient store id u now = none := by
  intro store id u now h
  induction store with
  | nil => rfl
  | cons x rest ih =>
    have hx : x.id ≠ id := h x (by simp)
    simp only [updateIngredient, if_neg hx]
    rw [ih (fun ing hing => h ing (by simp [hing]))]
    rfl

theorem updateIngredient_found :
    ∀ (pre post : List Ingredient) (ing : Ingredient) (id : String)
      (u : Updates) (now : Int),
      (∀ x ∈ pre, x.id ≠ id) → ing.id = id →
      updateIngredient (pre ++ ing :: post) id u now =
        some (pre ++ mergeIngredient ing u now :: post) := by
  intro pre
  induction pre with
  | nil =>
    intro post ing id u now _ hid
    simp [updateIngredient, hid]
  | cons x pre ih =>
    intro post ing id u now hpre hid
    have hx : x.id ≠ id := hpre x (by simp)
    simp only [List.cons_append, updateIngredient, if_neg hx, List.append_eq]
    rw [ih post ing id u now (fun y hy => hpre y (by simp [hy])) hid]
    rfl

/-- A concrete store and an `updates` object carrying a `createdAt`. -/
def c4Orig : Ingredient :=
  { id := "a", name := "x", category := "c", purchaseDate := none,
    expirationDate := none, quantity := "", location := "", notes := "",
    createdAt := 0, updatedAt := 0 }

/-- The update payload used in the C4 counterexample. -/
def c4Updates : Updates := { createdAt := some 5 }

/-- Counterexample to C4 as stated: when `updates` contains a `createdAt`,
the merged record takes it (5) instead of keeping the original (0) — the
merge pins only `id` and `updatedAt`. -/
theorem C4_counterexample :
    (updateIngredient [c4Orig] "a" c4Updates 7).map (List.map Ingredient.createdAt)
      = some [5] ∧ c4Orig.createdAt = 0 := by
  refine ⟨by decide, rfl⟩

/-- C4 (amended): `updateIngredient` replaces the first record matching
`id` with the spread-merge of the updates; the merged record keeps the
original `id` (even against a differing `updates.id`) and refreshes
`updatedAt`, while `createdAt` is kept only when `updates` itself carries
no `createdAt`; an unknown `id` fails and nothing is stored. -/
theorem C4_amended_update (store : List Ingredient) (id : String) (u : Updates)
    (now : Int) :
    ((∀ ing ∈ store, ing.id ≠ id) → updateIngredient store id u now = none) ∧
    (∀ (pre post : List Ingredient) (ing : Ingredient),
      store = pre ++ ing :: post → (∀ x ∈ pre, x.id ≠ id) → ing.id = id →
      updateIngredient store id u now =
        some (pre ++ mergeIngredient ing u now :: post)) ∧
    (∀ ing : Ingredient,
      (mergeIngredient ing u now).id = ing.id ∧
      (mergeIngredient ing u now).updatedAt = now ∧
      (u.createdAt = none → (mergeIngredient ing u now).createdAt = ing.createdAt)) := by
  refine ⟨updateIngredient_not_found store id u now, ?_, ?_⟩
  · intro pre post ing hst hpre hid
    rw [hst]
    exact updateIngredient_found pre post ing id u now hpre hid
  · intro ing
    refine ⟨rfl, rfl, fun h => ?_⟩
    simp [mergeIngredient, h]

/-- Witness for the amended C4 at a concrete store: the matching record is
merged in place (id kept, `updatedAt` refreshed) and an unknown id fails. -/
theorem C4_amended_update_witness :
    updateIngredient [c4Orig] "a" c4Updates 7 =
      some [mergeIngredient c4Orig c4Updates 7] ∧
    updateIngredient [c4Orig] "zzz" c4Updates 7 = none ∧
    (mergeIngredient c4Orig c4Updates 7).id = c4Orig.id ∧
    (mergeIngredient c4Orig c4Updates 7).updatedAt = 7 := by
  refine ⟨?_, ?_, ?_, ?_⟩
  · exact (C4_amended_update [c4Orig] "a" c4Updates 7).2.1 [] [] c4Orig rfl
      (by intro x hx; cases hx) rfl
  · refine (C4_amended_update [c4Orig] "zzz" c4Updates 7).1 ?_
    intro ing hing
    rw [List.mem_singleton.mp hing]
    decide
  · exact ((C4_amended_update [c4Orig] "a" c4Updates 7).2.2 c4Orig).1
  · exact ((C4_amended_update [c4Orig] "a" c4Updates 7).2.2 c4Orig).2.1

/-! ## Claim C10: statistics invariants -/

theorem bumpStatus_total (s : Stats) (st : Status) :
    (bumpStatus s st).total = s.total := by cases st <;> rfl

theorem bumpStatus_byCategory (s : Stats) (st : Status) :
    (bumpStatus s st).byCategory = s.byCategory := by cases st <;> rfl

theorem bumpStatus_sum (s : Stats) (st : Status) :
    (bumpStatus s st).expired + (bumpStatus s st).critical +
      (bumpStatus s st).warning + (bumpStatus s st).fresh =
    s.expired + s.critical + s.warning + s.fresh + 1 := by
  cases st <;> simp [bumpStatus] <;> omega

theorem sumCats_bumpCategory (m : List (String × Nat)) (c : String) :
    sumCats (bumpCategory m c) = sumCats m + 1 := by
  induction m with
  | nil => rfl
  | cons kv t ih =>
    obtain ⟨k, v⟩ := kv
    by_cases h : k = c
    · simp [bumpCategory, h, sumCats]
      omega
    · simp only [bumpCategory, if_neg h, sumCats, List.map_cons, List.sum_cons]
      have := ih
      simp only [sumCats] at this
      omega

theorem statsFold (today : Int) :
    ∀ (l : List Ingredient) (s : Stats),
      (List.foldl (fun s ing =>
        let s1 := bumpStatus s (getExpirationStatus ing today)
        { s1 with byCategory := bumpCategory s1.byCategory ing.category }) s l).total
        = s.total ∧
      ((List.foldl (fun s ing =>
        let s1 := bumpStatus s (getExpirationStatus ing today)
        { s1 with byCategory := bumpCategory s1.byCategory ing.category }) s l).expired +
       (List.foldl (fun s ing =>
        let s1 := bumpStatus s (getExpirationStatus ing today)
        { s1 with byCategory := bumpCategory s1.byCategory ing.category }) s l).critical +
       (List.foldl (fun s ing =>
        let s1 := bumpStatus s (getExpirationStatus ing today)
        { s1 with byCategory := bumpCategory s1.byCategory ing.category }) s l).warning +
       (List.foldl (fun s ing =>
        let s1 := bumpStatus s (getExpirationStatus ing today)
        { s1 with byCategory := bumpCategory s1.byCategory ing.category }) s l).fresh
        = s.expired + s.critical + s.warning + s.fresh + l.length) ∧
      sumCats (List.foldl (fun s ing =>
        let s1 := bumpStatus s (getExpirationStatus ing today)
        { s1 with byCategory := bumpCategory s1.byCategory ing.category }) s l).byCategory
        = sumCats s.byCategory + l.length := by
  intro l
  induction l with
  | nil => intro s; exact ⟨rfl, by simp, by simp⟩
  | cons ing t ih =>
    intro s
    simp only [List.foldl_cons]
    refine ⟨?_, ?_, ?_⟩
    · rw [(ih _).1]
      simp [bumpStatus_total]
    · rw [(ih _).2.1]
      have := bumpStatus_sum s (getExpirationStatus ing today)
      simp only [List.length_cons]
      omega
    · rw [(ih _).2.2]
      have h1 : sumCats (bumpCategory
          (bumpStatus s (getExpirationStatus ing today)).byCategory ing.category)
          = sumCats (bumpStatus s (getExpirationStatus ing today)).byCategory + 1 :=
        sumCats_bumpCategory _ _
      simp only [List.length_cons]
      rw [h1, bumpStatus_byCategory]
      omega

/-- C10: for a list whose expiration dates all parse, `getIngredientStats`
reports `total` equal to the list length, the four status buckets sum to
`total`, and the per-category counts sum to `total` as well (the embedding
is pure, so the input list is untouched). -/
theorem C10_stats_invariants (l : List Ingredient) (today : Int)
    (h : ∀ ing ∈ l, (dateVal ing.expirationDate).isSome = true) :
    (getIngredientStats l today).total = l.length ∧
    (getIngredientStats l today).expired + (getIngredientStats l today).critical +
      (getIngredientStats l today).warning + (getIngredientStats l today).fresh =
      (getIngredientStats l today).total ∧
    sumCats (getIngredientStats l today).byCategory =
      (getIngredientStats l today).total := by
  unfold getIngredientStats
  obtain ⟨h1, h2, h3⟩ := statsFold today l
    { total := l.length, expired := 0, critical := 0, warning := 0, fresh := 0,
      byCategory := [] }
  refine ⟨h1.trans rfl, ?_, ?_⟩
  · rw [h1, h2]
    simp
  · rw [h1, h3]
    simp [sumCats]

/-- Witness for C10 on a concrete two-record list. -/
theorem C10_stats_invariants_witness :
    (getIngredientStats
      [{ id := "s1", name := "a", category := "Dairy", purchaseDate := none,
         expirationDate := some (some 1), quantity := "", location := "",
         notes := "", createdAt := 0, updatedAt := 0 },
       { id := "s2", name := "b", category := "Meat", purchaseDate := none,
         expirationDate := some (some (-2)), quantity := "", location := "",
         notes := "", createdAt := 0, updatedAt := 0 }] 0).total = 2 ∧
    sumCats (getIngredientStats
      [{ id := "s1", name := "a", category := "Dairy", purchaseDate := none,
         expirationDate := some (some 1), quantity := "", location := "",
         notes := "", createdAt := 0, updatedAt := 0 },
       { id := "s2", name := "b", category := "Meat", purchaseDate := none,
         expirationDate := some (some (-2)), quantity := "", location := "",
         notes := "", createdAt := 0, updatedAt := 0 }] 0).byCategory = 2 := by
  have h := C10_stats_invariants
    [{ id := "s1", name := "a", category := "Dairy", purchaseDate := none,
       expirationDate := some (some 1), quantity := "", location := "",
       notes := "", createdAt := 0, updatedAt := 0 },
     { id := "s2", name := "b", category := "Meat", purchaseDate := none,
       expirationDate := some (some (-2)), quantity := "", location := "",
       notes := "", createdAt := 0, updatedAt := 0 }] 0
    (by intro ing hing; fin_cases hing <;> rfl)
  refine ⟨h.1.trans (by simp), ?_⟩
  rw [h.2.2, h.1]
  simp

/-! ## Claim C5: filtering semantics (corrected) -/

theorem mem_condFilter {b : Bool} {p : Ingredient → Bool} {l : List Ingredient}
    {x : Ingredient} : x ∈ condFilter b p l ↔ x ∈ l ∧ (b = true → p x = true) := by
  cases b <;> simp [condFilter, List.mem_filter]

/-- A record whose only occurrence of the query is in its `location`. -/
def c5Ing : Ingredient :=
  { id := "f1", name := "milk", category := "dairy", purchaseDate := none,
    expirationDate := some (some 1), quantity := "", location := "fridge",
    notes := "", createdAt := 0, updatedAt := 0 }

/-- Counterexample to C5 as stated: the query matches the record's
`location`, yet `filterIngredients` drops the record — its search criterion
consults only `name`, `category` and `notes` (only `searchIngredients` in
search.js also consults `location`). -/
theorem C5_counterexample :
    hasSub (queryOf "fridge") (lowerList c5Ing.location.data) = true ∧
    filterIngredients [c5Ing] { search := some "fridge" } 0 = [] ∧
    searchIngredients [c5Ing] (some "fridge") = [c5Ing] := by
  refine ⟨by decide, by decide, by decide⟩

/-- C5 (amended): a record passes `filterIngredients` iff it passes every
active criterion (conjunctive): the search hit is a case-insensitive
substring match of the trimmed lowered query against `name`, `category`, or
truthy `notes` — not `location`; inactive criteria are no-ops; and
`searchIngredients` (search.js) is the same search that additionally
consults `location`. -/
theorem C5_amended_filter_semantics :
    (∀ (ings : List Ingredient) (f : Filters) (today : Int) (ing : Ingredient),
      ing ∈ filterIngredients ings f today ↔ ing ∈ ings
        ∧ (strTruthy f.search = true →
            searchHit (queryOf (strVal f.search)) ing = true)
        ∧ (strTruthy f.category = true →
            (ing.category == strVal f.category) = true)
        ∧ (strTruthy f.status = true →
            (statusToString (getExpirationStatus ing today) == strVal f.status) = true)
        ∧ (f.startDate.isSome = true →
            jsGeD (dateVal ing.expirationDate) (dateVal f.startDate) = true)
        ∧ (f.endDate.isSome = true →
            jsLeD (dateVal ing.expirationDate) (dateVal f.endDate) = true)) ∧
    (∀ (ings : List Ingredient) (q : Option String) (ing : Ingredient),
      ing ∈ searchIngredients ings q ↔ ing ∈ ings
        ∧ ((strTruthy q && !strEmpty (jsTrim (strVal q))) = true →
            searchHitLoc (queryOf (strVal q)) ing = true)) := by
  constructor
  · intro ings f today ing
    simp only [filterIngredients, mem_condFilter]
    tauto
  · intro ings q ing
    cases hstr : strTruthy q <;> cases hemp : strEmpty (jsTrim (strVal q)) <;>
      simp [searchIngredients, hstr, hemp, List.mem_filter]

/-- Witness for the amended C5: a case-insensitive query matching the name
keeps the record. -/
theorem C5_amended_filter_semantics_witness :
    c5Ing ∈ filterIngredients [c5Ing] { search := some "MILK" } 0 ∧
    c5Ing ∈ searchIngredients [c5Ing] (some "FRIDGE") := by
  constructor
  · exact (C5_amended_filter_semantics.1 [c5Ing] { search := some "MILK" } 0
      c5Ing).mpr ⟨by decide, by decide, by decide, by decide, by decide, by decide⟩
  · exact (C5_amended_filter_semantics.2 [c5Ing] (some "FRIDGE") c5Ing).mpr
      ⟨by decide, by decide⟩

/-! ## Claim C6: timeline bar layout (corrected) -/

theorem msPerDay_ne : msPerDay ≠ 0 := by decide

/-- Evaluation of `calculateBarPositionW` on a record with parsed purchase
and expiration dates. -/
theorem barPositionW_eval (w today p e : Int) (ing : Ingredient)
    (hp : ing.purchaseDate = some (some p))
    (he : ing.expirationDate = some (some e)) :
    calculateBarPositionW w today ing =
      { left := some (min (max 0 (((p - today : Int) : ℚ) / (w : ℚ) * 100)) 100)
        width := some (max 0 (min (((e - p : Int) : ℚ) / (w : ℚ) * 100)
          (100 - max 0 (((p - today : Int) : ℚ) / (w : ℚ) * 100))))
        visible := decide (0 ≤ e - today) && decide (p - today < w)
        daysFromToday := some (p - today)
        duration := some (e - p) } := by
  unfold calculateBarPositionW
  rw [hp, he]
  simp only [dateVal, Option.getD_some, Option.map_some',
    jsFloorDiv_mul _ _ msPerDay_ne, jsGeZ, jsLtN]

/-- Inequality `min (max 0 L) 100 + max 0 (min W (100 − max 0 L)) ≤ 100`: the clamped
left plus the clamped width never exceed the window. -/
theorem barClamp_sum (L W : ℚ) :
    min (max 0 L) 100 + max 0 (min W (100 - max 0 L)) ≤ 100 := by
  rcases le_total (max 0 L) 100 with h | h
  · rw [min_eq_left h]
    have h2 : max 0 (min W (100 - max 0 L)) ≤ 100 - max 0 L := by
      apply max_le
      · linarith
      · exact min_le_right _ _
    linarith
  · rw [min_eq_right h]
    have h0 : min W (100 - max 0 L) ≤ 0 := le_trans (min_le_right _ _) (by linarith)
    rw [max_eq_left h0]
    linarith

/-- The record of the C6 counterexample: purchased 180 days out on a 90-day
window. -/
def c6Ing : Ingredient :=
  { id := "g", name := "n", category := "c",
    purchaseDate := some (some 180), expirationDate := some (some 190),
    quantity := "", location := "", notes := "",
    createdAt := 0, updatedAt := 0 }

/-- Counterexample to C6 as stated: the claim's `leftPercent = max(0, ·)`
would be 200 for a purchase 180 days out, but the code also caps `left` at
100 (`Math.min(leftPercent, 100)`). -/
theorem C6_counterexample :
    (calculateBarPosition 0 c6Ing).left = some 100 ∧
    max 0 (((180 : Int) - 0 : Int) / ((90 : Int) : ℚ) * 100) = 200 ∧
    (100 : ℚ) ≠ 200 := by
  refine ⟨?_, by push_cast; norm_num, by norm_num⟩
  rw [calculateBarPosition, show timelineDays = 90 from rfl,
    barPositionW_eval 90 0 180 190 c6Ing rfl rfl]
  show some (min (max 0 (((180 : Int) - 0 : Int) / ((90 : Int) : ℚ) * 100)) 100) = _
  push_cast
  norm_num

/-- C6 (amended): for parsed purchase/expiration dates and window `w > 0`,
`left` is `max(0, (p−t)/w·100)` additionally capped at 100, `width` is
`(e−p)/w·100` clamped below at 0 and above by `100 − max(0,(p−t)/w·100)`
(so `left + width ≤ 100`), and `visible` holds iff the expiration offset is
≥ 0 and the purchase offset is < `w`. -/
theorem C6_amended_bar_layout (w today p e : Int) (ing : Ingredient)
    (hw : 0 < w)
    (hp : ing.purchaseDate = some (some p))
    (he : ing.expirationDate = some (some e)) :
    (calculateBarPositionW w today ing).left =
      some (min (max 0 (((p - today : Int) : ℚ) / (w : ℚ) * 100)) 100) ∧
    (calculateBarPositionW w today ing).width =
      some (max 0 (min (((e - p : Int) : ℚ) / (w : ℚ) * 100)
        (100 - max 0 (((p - today : Int) : ℚ) / (w : ℚ) * 100)))) ∧
    (calculateBarPositionW w today ing).visible =
      (decide (0 ≤ e - today) && decide (p - today < w)) ∧
    (∀ lq wq : ℚ, (calculateBarPositionW w today ing).left = some lq →
      (calculateBarPositionW w today ing).width = some wq → lq + wq ≤ 100) := by
  rw [barPositionW_eval w today p e ing hp he]
  refine ⟨rfl, rfl, rfl, ?_⟩
  intro lq wq hl hw2
  rw [Option.some_inj] at hl hw2
  rw [← hl, ← hw2]
  exact barClamp_sum _ _

/-- The spec's concrete layout scenario: purchase on the reference day,
expiration 10 days later. -/
def c6ScenIng : Ingredient :=
  { id := "g2", name := "n", category := "c",
    purchaseDate := some (some 0), expirationDate := some (some 10),
    quantity := "", location := "", notes := "",
    createdAt := 0, updatedAt := 0 }

/-- Witness for the amended C6 on the spec scenario (window 90, purchase on
the reference day, expiration 10 days later): left 0, width 100/9 ≈ 11.11,
visible. -/
theorem C6_amended_bar_layout_witness :
    (calculateBarPositionW 90 0 c6ScenIng).left = some 0 ∧
    (calculateBarPositionW 90 0 c6ScenIng).width = some (100 / 9) ∧
    (calculateBarPositionW 90 0 c6ScenIng).visible = true := by
  have h := C6_amended_bar_layout 90 0 0 10 c6ScenIng (by norm_num) rfl rfl
  refine ⟨h.1.trans ?_, h.2.1.trans ?_, (h.2.2.1).trans ?_⟩
  · push_cast
    norm_num
  · push_cast
    norm_num
  · decide

/-! ## Claim C7: sorting — lexicographic order lemmas -/

theorem lexLt_cons (a b : Char) (as bs : List Char) :
    lexLt (a :: as) (b :: bs) = true ↔ a < b ∨ (a = b ∧ lexLt as bs = true) := by
  simp only [lexLt]
  split_ifs with h1 h2
  · simp [h1]
  · constructor
    · intro hF
      cases hF
    · rintro (h | ⟨rfl, _⟩)
      · exact absurd h h1
      · exact absurd h2 (lt_irrefl _)
  · have hab : a = b := le_antisymm (not_lt.mp h2) (not_lt.mp h1)
    simp [hab]

theorem lexLt_irrefl : ∀ l : List Char, lexLt l l = false
  | [] => rfl
  | a :: as => by
    rw [show lexLt (a :: as) (a :: as) =
        (if a < a then true else if a < a then false else lexLt as as) from rfl]
    simp [lexLt_irrefl as]

theorem lexLt_trans : ∀ (a b c : List Char),
    lexLt a b = true → lexLt b c = true → lexLt a c = true := by
  intro a
  induction a with
  | nil =>
    intro b c h1 h2
    cases b with
    | nil => cases h1
    | cons y ys =>
      cases c with
      | nil => cases h2
      | cons z zs => rfl
  | cons x xs ih =>
    intro b c h1 h2
    cases b with
    | nil => cases h1
    | cons y ys =>
      cases c with
      | nil => cases h2
      | cons z zs =>
        rw [lexLt_cons] at h1 h2 ⊢
        rcases h1 with h1 | ⟨rfl, h1⟩ <;> rcases h2 with h2 | ⟨rfl, h2⟩
        · exact Or.inl (lt_trans h1 h2)
        · exact Or.inl h1
        · exact Or.inl h2
        · exact Or.inr ⟨rfl, ih ys zs h1 h2⟩

theorem lexLt_trichot : ∀ a b : List Char,
    lexLt a b = true ∨ a = b ∨ lexLt b a = true := by
  intro a
  induction a with
  | nil =>
    intro b
    cases b with
    | nil => exact Or.inr (Or.inl rfl)
    | cons y ys => exact Or.inl rfl
  | cons x xs ih =>
    intro b
    cases b with
    | nil => exact Or.inr (Or.inr rfl)
    | cons y ys =>
      rcases lt_trichotomy x y with h | h | h
      · exact Or.inl ((lexLt_cons _ _ _ _).mpr (Or.inl h))
      · subst h
        rcases ih ys with h2 | h2 | h2
        · exact Or.inl ((lexLt_cons _ _ _ _).mpr (Or.inr ⟨rfl, h2⟩))
        · exact Or.inr (Or.inl (by rw [h2]))
        · exact Or.inr (Or.inr ((lexLt_cons _ _ _ _).mpr (Or.inr ⟨rfl, h2⟩)))
      · exact Or.inr (Or.inr ((lexLt_cons _ _ _ _).mpr (Or.inl h)))

theorem lexLt_asymm : ∀ a b : List Char,
    lexLt a b = true → lexLt b a = false := by
  intro a
  induction a with
  | nil =>
    intro b h
    cases b with
    | nil => cases h
    | cons y ys => rfl
  | cons x xs ih =>
    intro b h
    cases b with
    | nil => cases h
    | cons y ys =>
      rw [lexLt_cons] at h
      cases hba : lexLt (y :: ys) (x :: xs)
      · rfl
      · exfalso
        rw [lexLt_cons] at hba
        rcases h with h | ⟨rfl, h⟩ <;> rcases hba with h2 | ⟨he2, h2⟩
        · exact absurd h2 (not_lt.mpr (le_of_lt h))
        · exact absurd (he2 ▸ h) (lt_irrefl _)
        · exact absurd h2 (lt_irrefl _)
        · rw [ih ys h] at h2
          cases h2

/-! ## Claim C7: sorting — comparator value lemmas -/

/-- A comparator value behaves consistently under JS `<` unless it is an
Invalid Date (`NaN` compares false against everything). -/
def cmpOk : CmpV → Bool
  | .date none => false
  | _ => true

/-- The constructor kind of a comparator value (each sort key produces a
single kind). -/
def cmpKind : CmpV → Nat
  | .str _ => 0
  | .date _ => 1
  | .num _ => 2

/-- The record's key is a consistently comparable value (always true except
for an unparseable date under a date sort key). -/
def keyOk (k : SortKey) (today : Int) (ing : Ingredient) : Bool :=
  cmpOk (keyOf k today ing)

theorem cmpVLt_irrefl : ∀ x : CmpV, cmpVLt x x = false := by
  intro x
  cases x with
  | str a => simp [cmpVLt, lexLt_irrefl]
  | date a => cases a <;> simp [cmpVLt]
  | num a => simp [cmpVLt]

theorem cmpVLt_asymm : ∀ x y : CmpV, cmpVLt x y = true → cmpVLt y x = false := by
  intro x y h
  cases x <;> cases y <;> simp only [cmpVLt] at h ⊢ <;> try cases h
  case str.str a b => exact lexLt_asymm a b h
  case date.date a b =>
    cases a <;> cases b <;> simp_all
    omega
  case num.num a b =>
    simp_all
    omega

theorem cmpVLt_transLt : ∀ x y z : CmpV,
    cmpVLt x y = true → cmpVLt y z = true → cmpVLt x z = true := by
  intro x y z h1 h2
  cases x <;> cases y <;> cases z <;>
    simp only [cmpVLt] at h1 h2 ⊢ <;> try cases h1
  all_goals try cases h2
  case str.str.str a b c => exact lexLt_trans a b c h1 h2
  case date.date.date a b c =>
    cases a <;> cases b <;> cases c <;> simp_all
    omega
  case num.num.num a b c => simp_all; omega

theorem cmpVLt_trichot : ∀ x y : CmpV, cmpOk x = true → cmpOk y = true →
    cmpKind x = cmpKind y →
    cmpVLt x y = true ∨ x = y ∨ cmpVLt y x = true := by
  intro x y hx hy hk
  cases x <;> cases y <;> simp only [cmpKind] at hk <;> try omega
  case str.str a b =>
    rcases lexLt_trichot a b with h | h | h
    · exact Or.inl (by simpa [cmpVLt] using h)
    · exact Or.inr (Or.inl (by rw [h]))
    · exact Or.inr (Or.inr (by simpa [cmpVLt] using h))
  case date.date a b =>
    cases a with
    | none => cases hx
    | some av =>
      cases b with
      | none => cases hy
      | some bv =>
        rcases lt_trichotomy av bv with h | h | h
        · exact Or.inl (by simp [cmpVLt, h])
        · exact Or.inr (Or.inl (by rw [h]))
        · exact Or.inr (Or.inr (by simp [cmpVLt, h]))
  case num.num a b =>
    rcases lt_trichotomy a b with h | h | h
    · exact Or.inl (by simp [cmpVLt, h])
    · exact Or.inr (Or.inl (by rw [h]))
    · exact Or.inr (Or.inr (by simp [cmpVLt, h]))

/-- Negative transitivity: if `x < z` then `x < y` or `y < z`, provided the
keys are comparable values of the same kind. -/
theorem cmpVLt_negTrans (x y z : CmpV) (hx : cmpOk x = true) (hy : cmpOk y = true)
    (hk : cmpKind x = cmpKind y) (h : cmpVLt x z = true) :
    cmpVLt x y = true ∨ cmpVLt y z = true := by
  rcases cmpVLt_trichot x y hx hy hk with h1 | rfl | h1
  · exact Or.inl h1
  · exact Or.inr h
  · exact Or.inr (cmpVLt_transLt y x z h1 h)

/-- All keys produced by one sort key share a constructor kind. -/
theorem keyOf_kind_eq (k : SortKey) (today : Int) (a b : Ingredient) :
    cmpKind (keyOf k today a) = cmpKind (keyOf k today b) := by
  cases k <;> rfl

/-- The boolean `comparator ≤ 0` used by the sort, for ascending order. -/
theorem comparator_le_asc (k : SortKey) (today : Int) (a b : Ingredient) :
    decide (comparator k .asc today a b ≤ 0) =
      !cmpVLt (keyOf k today b) (keyOf k today a) := by
  unfold comparator
  by_cases h1 : cmpVLt (keyOf k today a) (keyOf k today b) = true
  · simp [h1, cmpVLt_asymm _ _ h1]
  · by_cases h2 : cmpVLt (keyOf k today b) (keyOf k today a) = true
    · simp [h1, h2]
    · simp [h1, h2]

/-- The boolean `comparator ≤ 0` used by the sort, for descending order. -/
theorem comparator_le_desc (k : SortKey) (today : Int) (a b : Ingredient) :
    decide (comparator k .desc today a b ≤ 0) =
      !cmpVLt (keyOf k today a) (keyOf k today b) := by
  unfold comparator
  by_cases h1 : cmpVLt (keyOf k today a) (keyOf k today b) = true
  · simp [h1]
  · by_cases h2 : cmpVLt (keyOf k today b) (keyOf k today a) = true
    · simp [h1, h2]
    · simp [h1, h2]

/-! ## Claim C7: sorting — uniqueness of sorted permutations and pairs -/

/-- Two sorted permutations of each other coincide when the order is
antisymmetric on the elements involved. -/
theorem perm_pairwise_eq {α : Type _} (le : α → α → Bool) :
    ∀ (l₁ l₂ : List α), l₁.Perm l₂ →
      l₁.Pairwise (fun a b => le a b = true) →
      l₂.Pairwise (fun a b => le a b = true) →
      (∀ a ∈ l₁, ∀ b ∈ l₁, le a b = true → le b a = true → a = b) →
      l₁ = l₂ := by
  intro l₁
  induction l₁ with
  | nil =>
    intro l₂ hp _ _ _
    exact hp.nil_eq
  | cons a t ih =>
    intro l₂ hp hs1 hs2 hanti
    cases l₂ with
    | nil => cases hp.symm.nil_eq
    | cons b t₂ =>
      have hab : a = b := by
        by_cases h : a = b
        · exact h
        · have hbmem : b ∈ a :: t := hp.mem_iff.mpr (by simp)
          have hamem : a ∈ b :: t₂ := hp.mem_iff.mp (by simp)
          have h1 : le a b = true := by
            rcases List.mem_cons.mp hbmem with he | hbt
            · exact absurd he.symm h
            · exact List.rel_of_pairwise_cons hs1 hbt
          have h2 : le b a = true := by
            rcases List.mem_cons.mp hamem with he | hat
            · exact absurd he h
            · exact List.rel_of_pairwise_cons hs2 hat
          exact hanti a (by simp) b hbmem h1 h2
      subst hab
      have hp2 : t.Perm t₂ := hp.cons_inv
      rw [ih t₂ hp2 hs1.of_cons hs2.of_cons
        (fun x hx y hy => hanti x (List.mem_cons_of_mem _ hx)
          y (List.mem_cons_of_mem _ hy))]

/-- Evaluating `mergeSort` on a two-element list is a single comparison. -/
theorem mergeSort_pair {α : Type _} (le : α → α → Bool) (a b : α) :
    List.mergeSort [a, b] le = if le a b then [a, b] else [b, a] := by
  rw [List.mergeSort]
  by_cases h : le a b = true <;>
    simp [List.splitInTwo_fst, List.splitInTwo_snd, List.merge, h]

/-! ## Claim C7: sorting — transitivity/totality and transfer lemmas -/

theorem sortLe_total (k : SortKey) (ord : SortOrder) (today : Int)
    (a b : Ingredient) :
    (decide (comparator k ord today a b ≤ 0) ||
      decide (comparator k ord today b a ≤ 0)) = true := by
  cases ord
  · rw [comparator_le_asc, comparator_le_asc]
    cases h : cmpVLt (keyOf k today a) (keyOf k today b)
    · simp [h]
    · simp [cmpVLt_asymm _ _ h]
  · rw [comparator_le_desc, comparator_le_desc]
    cases h : cmpVLt (keyOf k today a) (keyOf k today b)
    · simp [h]
    · simp [cmpVLt_asymm _ _ h]

theorem sortLe_trans (k : SortKey) (ord : SortOrder) (today : Int)
    (a b c : Ingredient) (ha : keyOk k today a = true) (hb : keyOk k today b = true)
    (hc : keyOk k today c = true)
    (h1 : decide (comparator k ord today a b ≤ 0) = true)
    (h2 : decide (comparator k ord today b c ≤ 0) = true) :
    decide (comparator k ord today a c ≤ 0) = true := by
  cases ord
  · rw [comparator_le_asc] at h1 h2 ⊢
    rw [Bool.not_eq_true'] at h1 h2 ⊢
    cases hlt : cmpVLt (keyOf k today c) (keyOf k today a)
    · rfl
    · rcases cmpVLt_negTrans (keyOf k today c) (keyOf k today b) (keyOf k today a)
        hc hb (keyOf_kind_eq k today c b) hlt with hx | hx
      · rw [hx] at h2
        cases h2
      · rw [hx] at h1
        cases h1
  · rw [comparator_le_desc] at h1 h2 ⊢
    rw [Bool.not_eq_true'] at h1 h2 ⊢
    cases hlt : cmpVLt (keyOf k today a) (keyOf k today c)
    · rfl
    · rcases cmpVLt_negTrans (keyOf k today a) (keyOf k today b) (keyOf k today c)
        ha hb (keyOf_kind_eq k today a b) hlt with hx | hx
      · rw [hx] at h1
        cases h1
      · rw [hx] at h2
        cases h2

theorem comparator_eq_of_keys (k : SortKey) (ord : SortOrder) (today : Int)
    (a b : Ingredient) (h : keyOf k today a = keyOf k today b) :
    decide (comparator k ord today a b ≤ 0) = true := by
  unfold comparator
  rw [h]
  simp [cmpVLt_irrefl]

/-- Transfer of the sort to the subtype of records with consistent keys. -/
theorem mergeSort_attach (l : List Ingredient) (k : SortKey) (ord : SortOrder)
    (today : Int) (hk : ∀ ing ∈ l, keyOk k today ing = true) :
    List.mergeSort l (fun a b => decide (comparator k ord today a b ≤ 0)) =
      (List.mergeSort
        (l.attach.map (fun x =>
          (⟨x.1, hk x.1 x.2⟩ : {y : Ingredient // keyOk k today y = true})))
        (fun a b => decide (comparator k ord today a.1 b.1 ≤ 0))).map
        Subtype.val := by
  have h2 : (List.mergeSort
      (l.attach.map (fun x =>
        (⟨x.1, hk x.1 x.2⟩ : {y : Ingredient // keyOk k today y = true})))
      (fun a b => decide (comparator k ord today a.1 b.1 ≤ 0))).map Subtype.val =
      ((l.attach.map (fun x =>
        (⟨x.1, hk x.1 x.2⟩ : {y : Ingredient // keyOk k today y = true}))).map
          Subtype.val).mergeSort
        (fun a b => decide (comparator k ord today a b ≤ 0)) :=
    List.map_mergeSort (fun a _ b _ => rfl)
  have h3 : (l.attach.map (fun x =>
      (⟨x.1, hk x.1 x.2⟩ : {y : Ingredient // keyOk k today y = true}))).map
        Subtype.val = l := by
    rw [List.map_map]
    exact (List.attach_map_val l _).trans (List.map_id l)
  rw [h3] at h2
  exact h2.symm

theorem sortIngredients_sorted (l : List Ingredient) (k : SortKey)
    (ord : SortOrder) (today : Int) (hk : ∀ ing ∈ l, keyOk k today ing = true) :
    (sortIngredients l k ord today).Pairwise
      (fun a b => decide (comparator k ord today a b ≤ 0) = true) := by
  unfold sortIngredients
  rw [mergeSort_attach l k ord today hk, List.pairwise_map]
  exact List.sorted_mergeSort
    (fun a b c h1 h2 => sortLe_trans k ord today a.1 b.1 c.1 a.2 b.2 c.2 h1 h2)
    (fun a b => sortLe_total k ord today a.1 b.1) _

theorem sortIngredients_stable_filter (l : List Ingredient) (k : SortKey)
    (ord : SortOrder) (today : Int) (hk : ∀ ing ∈ l, keyOk k today ing = true)
    (p : Ingredient → Bool)
    (hp : ∀ a b : Ingredient, p a = true → p b = true →
      decide (comparator k ord today a b ≤ 0) = true) :
    (sortIngredients l k ord today).filter p = l.filter p := by
  unfold sortIngredients
  have hperm := List.mergeSort_perm l
    (fun a b => decide (comparator k ord today a b ≤ 0))
  have hsubl : (l.filter p).Sublist
      (List.mergeSort l (fun a b => decide (comparator k ord today a b ≤ 0))) := by
    rw [mergeSort_attach l k ord today hk]
    have hval : (l.attach.map (fun x =>
        (⟨x.1, hk x.1 x.2⟩ : {y : Ingredient // keyOk k today y = true}))).map
          Subtype.val = l := by
      rw [List.map_map]
      exact (List.attach_map_val l _).trans (List.map_id l)
    have hqf : l.filter p = ((l.attach.map (fun x =>
        (⟨x.1, hk x.1 x.2⟩ : {y : Ingredient // keyOk k today y = true}))).filter
          (fun y => p y.1)).map Subtype.val := by
      conv_lhs => rw [← hval]
      rw [List.filter_map]
      rfl
    rw [hqf]
    apply List.Sublist.map
    apply List.sublist_mergeSort
      (fun a b c h1 h2 => sortLe_trans k ord today a.1 b.1 c.1 a.2 b.2 c.2 h1 h2)
      (fun a b => sortLe_total k ord today a.1 b.1)
    · apply List.pairwise_of_forall_mem_list
      intro a ha b hb
      exact hp a.1 b.1 (List.mem_filter.mp ha).2 (List.mem_filter.mp hb).2
    · exact List.filter_sublist _
  have hlen : ((List.mergeSort l
      (fun a b => decide (comparator k ord today a b ≤ 0))).filter p).length =
      (l.filter p).length := by
    rw [← List.countP_eq_length_filter, ← List.countP_eq_length_filter]
    exact hperm.countP_eq p
  have h2 : ((l.filter p).filter p).Sublist
      ((List.mergeSort l (fun a b => decide (comparator k ord today a b ≤ 0))).filter
        p) := hsubl.filter p
  rw [List.filter_eq_self.mpr (fun a ha => (List.mem_filter.mp ha).2)] at h2
  exact (h2.eq_of_length hlen.symm).symm

/-! ## Claim C7: sorting — the claim theorems -/

/-- Two records sharing a (case-insensitively) equal sort key. -/
def c7A : Ingredient :=
  { id := "p", name := "same", category := "c1", purchaseDate := none,
    expirationDate := some (some 1), quantity := "", location := "", notes := "",
    createdAt := 0, updatedAt := 0 }

/-- Second record with the same name as `c7A`. -/
def c7B : Ingredient :=
  { id := "q", name := "same", category := "c2", purchaseDate := none,
    expirationDate := some (some 2), quantity := "", location := "", notes := "",
    createdAt := 0, updatedAt := 0 }

/-- Counterexample to C7 as stated: on two records with equal name keys, the
stable sort keeps input order for both `asc` and `desc`, so the `desc`
result is not the reversal of the `asc` result. -/
theorem C7_counterexample :
    sortIngredients [c7A, c7B] .name .desc 0 ≠
      (sortIngredients [c7A, c7B] .name .asc 0).reverse := by
  unfold sortIngredients
  rw [mergeSort_pair, mergeSort_pair]
  decide

/-- C7 (amended): under consistently comparable keys, `sortIngredients`
returns a permutation (an ordered copy) of its input; it is stable — the
subsequence of records whose key ties any fixed key is exactly the input's
subsequence, for both orders; `asc`/`desc` results are sorted by the key
comparison (case-insensitive strings, chronological dates, status severity
rank, per `keyOf`); and `desc` is the element-wise reversal of `asc` when
the records' keys are pairwise distinct — with ties, stability keeps input
order in both, so reversal fails in general (see the counterexample). -/
theorem C7_amended_sort (l : List Ingredient) (k : SortKey) (ord : SortOrder)
    (today : Int) (hk : ∀ ing ∈ l, keyOk k today ing = true) :
    (sortIngredients l k ord today).Perm l ∧
    (∀ x : Ingredient,
      (sortIngredients l k ord today).filter
          (fun y => decide (keyOf k today y = keyOf k today x)) =
        l.filter (fun y => decide (keyOf k today y = keyOf k today x))) ∧
    (sortIngredients l k .asc today).Pairwise
      (fun a b => cmpVLt (keyOf k today b) (keyOf k today a) = false) ∧
    (sortIngredients l k .desc today).Pairwise
      (fun a b => cmpVLt (keyOf k today a) (keyOf k today b) = false) ∧
    ((∀ a ∈ l, ∀ b ∈ l, keyOf k today a = keyOf k today b → a = b) →
      sortIngredients l k .desc today = (sortIngredients l k .asc today).reverse) := by
  refine ⟨List.mergeSort_perm l _, ?_, ?_, ?_, ?_⟩
  · intro x
    apply sortIngredients_stable_filter l k ord today hk
    intro a b ha hb
    have ha2 : keyOf k today a = keyOf k today x := of_decide_eq_true ha
    have hb2 : keyOf k today b = keyOf k today x := of_decide_eq_true hb
    exact comparator_eq_of_keys k ord today a b (ha2.trans hb2.symm)
  · refine (sortIngredients_sorted l k .asc today hk).imp ?_
    intro a b hab
    rw [comparator_le_asc, Bool.not_eq_true'] at hab
    exact hab
  · refine (sortIngredients_sorted l k .desc today hk).imp ?_
    intro a b hab
    rw [comparator_le_desc, Bool.not_eq_true'] at hab
    exact hab
  · intro hdist
    apply perm_pairwise_eq (fun a b => decide (comparator k .desc today a b ≤ 0))
    · have h1 : (sortIngredients l k .desc today).Perm l := List.mergeSort_perm l _
      have h2 : (sortIngredients l k .asc today).Perm l := List.mergeSort_perm l _
      have h3 : ((sortIngredients l k .asc today).reverse).Perm
          (sortIngredients l k .asc today) := List.reverse_perm _
      exact h1.trans (h3.trans h2).symm
    · exact sortIngredients_sorted l k .desc today hk
    · rw [List.pairwise_reverse]
      refine (sortIngredients_sorted l k .asc today hk).imp ?_
      intro a b hab
      rw [comparator_le_asc] at hab
      rw [comparator_le_desc]
      exact hab
    · intro a ha b hb h1 h2
      have hal : a ∈ l := List.mem_mergeSort.mp ha
      have hbl : b ∈ l := List.mem_mergeSort.mp hb
      rw [comparator_le_desc, Bool.not_eq_true'] at h1 h2
      rcases cmpVLt_trichot (keyOf k today a) (keyOf k today b)
          (hk a hal) (hk b hbl) (keyOf_kind_eq k today a b) with hx | hx | hx
      · rw [hx] at h1
        cases h1
      · exact hdist a hal b hbl hx
      · rw [hx] at h2
        cases h2

/-- Witness for the amended C7: on a concrete list, the name-sort is a
permutation of the input, and with pairwise-distinct keys the descending
sort is the reversal of the ascending one. -/
theorem C7_amended_sort_witness :
    (sortIngredients [c7A, c7B] .name .asc 0).Perm [c7A, c7B] ∧
    sortIngredients [c7B] .category .desc 0 =
      (sortIngredients [c7B] .category .asc 0).reverse := by
  constructor
  · exact (C7_amended_sort [c7A, c7B] .name .asc 0
      (by intro ing hing; fin_cases hing <;> rfl)).1
  · exact (C7_amended_sort [c7B] .category .desc 0
      (by intro ing hing; fin_cases hing <;> rfl)).2.2.2.2
      (by
        intro a ha b hb hab
        rw [List.mem_singleton.mp ha, List.mem_singleton.mp hb])

end ExpiryMgr
